import Mathlib

/-!
Verification of the filename/path metadata parser and the tag-based
filtering/ranking engine of `src/app.py` (the "Lup Shots" sample browser).

Strings are shallowly embedded as `List Char`.  Python's `str` helpers
(`upper`, `lower`, `strip`, `split`, slicing) and the few regular
expressions used by the source are translated into explicit recursive
functions.  Scope notes for the translation:

* `str.upper` / `str.lower` and the `re.I` flag are modelled with
  `Char.toUpper` / `Char.toLower`, which act on the ASCII range; all
  grammar markers of the source (`ONESHOT`, `LOOP`, `KEY_`, `BPM_`,
  `GENERO_`, `_X_`) are ASCII.
* `unicodedata.normalize("NFD", s)` followed by dropping the combining
  marks ("Mn") is modelled character-wise by `stripAccentChar`, a table
  covering the precomposed Latin-1 letters; NFD is the identity on the
  ASCII range.
* `.*` in the title-trimming regexes is modelled as "the rest of the
  string": file names contain no newline character, which is the only
  character Python's `.` refuses.
* `str.strip` / `\s` are modelled over the six ASCII whitespace
  characters.
* `str.isdigit` accepts every character of Numeric_Type Digit or
  Decimal while `int()` accepts only decimal (Nd) digits, so the BPM
  guard can pass a string that `int()` then rejects with `ValueError`
  (e.g. `"1²"`).  `isDigits` therefore covers the ASCII digits plus the
  digit-type superscript and subscript characters, `pyInt` can fail, and the
  parser returns `Option Meta` with `none` modelling the raised
  `ValueError`.
-/

namespace LupShots

/-- Strings of the embedded program. -/
abbrev Str := List Char

/-- Convert a Lean string literal into the embedded representation. -/
def str (s : String) : Str := s.data

/-- The six ASCII whitespace characters matched by Python's `\s` and
stripped by `str.strip`. -/
def isPySpace (c : Char) : Bool :=
  c = ' ' || c = '\t' || c = '\n' || c = '\r' || c = '\x0b' || c = '\x0c'

/-- Python `str.strip()`: drop leading and trailing whitespace. -/
def pyStrip (s : Str) : Str :=
  ((s.dropWhile isPySpace).reverse.dropWhile isPySpace).reverse

/-- Python `str.upper()` (ASCII range). -/
def pyUpper (s : Str) : Str := s.map Char.toUpper

/-- Python `str.lower()` (ASCII range). -/
def pyLower (s : Str) : Str := s.map Char.toLower

/-- The base letter of the canonical (NFD) decomposition of the
precomposed Latin-1 letters; identity on every other character.
Models `unicodedata.normalize("NFD", ·)` followed by removal of the
combining-mark ("Mn") characters, applied character-wise. -/
def stripAccentChar (c : Char) : Char :=
  match c with
  | 'À' | 'Á' | 'Â' | 'Ã' | 'Ä' => 'A'
  | 'È' | 'É' | 'Ê' | 'Ë' => 'E'
  | 'Ì' | 'Í' | 'Î' | 'Ï' => 'I'
  | 'Ò' | 'Ó' | 'Ô' | 'Õ' | 'Ö' => 'O'
  | 'Ù' | 'Ú' | 'Û' | 'Ü' => 'U'
  | 'Ç' => 'C'
  | 'Ñ' => 'N'
  | 'Ý' => 'Y'
  | 'à' | 'á' | 'â' | 'ã' | 'ä' => 'a'
  | 'è' | 'é' | 'ê' | 'ë' => 'e'
  | 'ì' | 'í' | 'î' | 'ï' => 'i'
  | 'ò' | 'ó' | 'ô' | 'õ' | 'ö' => 'o'
  | 'ù' | 'ú' | 'û' | 'ü' => 'u'
  | 'ç' => 'c'
  | 'ñ' => 'n'
  | 'ý' | 'ÿ' => 'y'
  | c => c

/-- `strip_accents_lower` of `src/app.py` (lines 63-65): NFD-normalize,
drop combining marks, lowercase. -/
def strip_accents_lower (s : Str) : Str :=
  s.map (fun c => (stripAccentChar c).toLower)

/-- Helper of `splitX`; `acc` is the (reversed) current piece. -/
def splitXAux : Str → Str → List Str
  | '_' :: 'X' :: '_' :: rest, acc => acc.reverse :: splitXAux rest []
  | c :: cs, acc => splitXAux cs (c :: acc)
  | [], acc => [acc.reverse]

/-- Python `s.split("_X_")`: split on the literal three-character
separator, leftmost and non-overlapping; `"".split` gives `[""]`. -/
def splitX (s : Str) : List Str := splitXAux s []

/-- Python `"_X_".join(parts)`. -/
def joinX : List Str → Str
  | [] => []
  | [s] => s
  | s :: rest => s ++ '_' :: 'X' :: '_' :: joinX rest

/-- Helper of `splitU`. -/
def splitUAux : Str → Str → List Str
  | [], acc => [acc.reverse]
  | c :: cs, acc =>
    if c = '_' then acc.reverse :: splitUAux cs []
    else splitUAux cs (c :: acc)

/-- Python `s.split("_")`. -/
def splitU (s : Str) : List Str := splitUAux s []

/-- `re.sub(r"\.[^.]+$", "", s)`: drop the last dot-suffix when the part
after the last dot is non-empty; otherwise the string is unchanged. -/
def stripExt (s : Str) : Str :=
  let rev := s.reverse
  let suf := rev.takeWhile (fun c => c ≠ '.')
  if suf.length < rev.length && suf.length ≠ 0 then
    (rev.drop (suf.length + 1)).reverse
  else s

/-- Case-insensitive literal match: if `s` starts with `m` (comparing
characters through `Char.toUpper`, as `re.I` does on ASCII), return the
remainder of `s`. -/
def matchCI : Str → Str → Option Str
  | [], s => some s
  | _ :: _, [] => none
  | m :: ms, c :: cs => if c.toUpper = m.toUpper then matchCI ms cs else none

/-- Try the body of `(?:^|_)MARKER([^_]+)` at the current position:
match `marker` case-insensitively, then capture the maximal non-empty
run of non-underscore characters. -/
def tryCapture (marker : Str) (s : Str) : Option Str :=
  match matchCI marker s with
  | none => none
  | some rest =>
    let cap := rest.takeWhile (fun c => c ≠ '_')
    if cap = [] then none else some cap

/-- Scan for the `'_'`-anchored alternative of `(?:^|_)MARKER([^_]+)`:
at every position holding `'_'`, try the marker just after it. -/
def searchMarkerAux (marker : Str) : Str → Option Str
  | [] => none
  | c :: cs =>
    if c = '_' then
      match tryCapture marker cs with
      | some r => some r
      | none => searchMarkerAux marker cs
    else searchMarkerAux marker cs

/-- `re.search(r"(?:^|_)MARKER([^_]+)", s, flags=re.I)`, returning the
captured group of the leftmost match (the `^` alternative is tried at
position 0 first, then each `'_'`-anchored position left to right). -/
def searchMarker (marker : Str) (s : Str) : Option Str :=
  match tryCapture marker s with
  | some r => some r
  | none => searchMarkerAux marker s

/-- `re.sub(r"MARKER.*", "", s, flags=re.I)`: delete everything from the
leftmost case-insensitive occurrence of `marker` on (file names contain
no newline, so `.*` reaches the end of the string). -/
def cutMarker (marker : Str) : Str → Str
  | [] => []
  | c :: cs =>
    match matchCI marker (c :: cs) with
    | some _ => []
    | none => c :: cutMarker marker cs

/-- A character accepted by Python `str.isdigit`: Numeric_Type Digit or
Decimal.  The table holds the ASCII decimal digits plus the Latin-1 and
superscript and subscript digit characters, which `isdigit` accepts but `int()`
rejects; decimal digits of other scripts (accepted by both) are outside
this repository's ASCII naming convention. -/
def isDigitChar (c : Char) : Bool :=
  c.isDigit
    || c = '¹' || c = '²' || c = '³'
    || c = '⁰' || c = '⁴' || c = '⁵' || c = '⁶' || c = '⁷' || c = '⁸' || c = '⁹'
    || c = '₀' || c = '₁' || c = '₂' || c = '₃' || c = '₄'
    || c = '₅' || c = '₆' || c = '₇' || c = '₈' || c = '₉'

/-- Python `str.isdigit`: non-empty and every character of Numeric_Type
Digit or Decimal. -/
def isDigits (s : Str) : Bool := !s.isEmpty && s.all isDigitChar

/-- The numeric value of a run of decimal digits. -/
def natOfDigits (s : Str) : Nat :=
  s.foldl (fun n c => n * 10 + (c.toNat - '0'.toNat)) 0

/-- Python `int(s)` on an already-stripped string: succeeds exactly on
a non-empty run of decimal (Nd) digits and raises `ValueError`
(modelled as `none`) otherwise — in particular on the superscript and subscript
digit-type characters that `str.isdigit` accepts.  (Sign or whitespace
forms never reach it here: the `isdigit` guard rejects them first.) -/
def pyInt (s : Str) : Option Nat :=
  if !s.isEmpty && s.all Char.isDigit then some (natOfDigits s) else none

/-- Helper of `dedupFirst`: keep elements not yet seen. -/
def dedupFirstAux {α : Type} [DecidableEq α] (seen : List α) : List α → List α
  | [] => []
  | a :: l =>
    if a ∈ seen then dedupFirstAux seen l else a :: dedupFirstAux (a :: seen) l

/-- Python `list(dict.fromkeys(l))`: remove duplicates keeping the first
occurrence of each value. -/
def dedupFirst {α : Type} [DecidableEq α] (l : List α) : List α :=
  dedupFirstAux [] l

/-- Python `tok in hay` for strings: substring test. -/
def isSubstr (tok : Str) : Str → Bool
  | [] => tok.isEmpty
  | c :: cs => tok.isPrefixOf (c :: cs) || isSubstr tok cs

/-! ## The parser (`src/app.py`, lines 63-197) -/

/-- The facet dictionary produced by the parser: the common shape
returned by `_parse_filename_piecewise`, `_parse_legacy_filename` and
`parse_from_path`.  `bpm = 0` is the source's sentinel for "unset";
`key = ""` and `sample_type = ""` likewise. -/
structure Meta where
  sample_type : Str
  genres : List Str
  generals : List Str
  specifics : List Str
  title : Str
  key : Str
  bpm : Nat
deriving DecidableEq, Repr

/-- `_clean_title_remove_trailing_number` (lines 67-70):
`re.sub(r"[\s\-]*\d+\s*$", "", title).strip() or title`.  The regex
matches (leftmost) a maximal run of whitespace/hyphens, a digit run and
trailing whitespace anchored at the end; absent a digit run adjacent to
the end (through whitespace) there is no match. -/
def clean_title (title : Str) : Str :=
  let r1 := title.reverse.dropWhile isPySpace
  let d := r1.takeWhile Char.isDigit
  let t :=
    if d = [] then pyStrip title
    else pyStrip ((r1.dropWhile Char.isDigit).dropWhile
      (fun c => isPySpace c || c = '-')).reverse
  if t = [] then title else t

/-- Key extraction shared by both filename grammars (lines 129-131 and
178-180): search `(?:^|_)KEY_([^_]+)`, uppercase and strip the capture,
and map the absent/`"NO"` sentinel to the empty string. -/
def parseKey (tail : Str) : Str :=
  let k := pyStrip (pyUpper ((searchMarker (str "KEY_") tail).getD []))
  if k = [] ∨ k = str "NO" then [] else k

/-- BPM extraction shared by both filename grammars (lines 133-138 and
182-187): search `(?:^|_)BPM_([^_]+)`; when the stripped capture is not
`"NO"` and passes `str.isdigit`, it is handed to `int()`, which can
raise `ValueError` (`none`) on digit-type characters such as `'²'`;
otherwise the bpm stays 0. -/
def parseBpm (tail : Str) : Option Nat :=
  match searchMarker (str "BPM_") tail with
  | none => some 0
  | some g =>
    let t := pyStrip g
    if pyUpper t ≠ str "NO" && isDigits t then pyInt t else some 0

/-- Title extraction shared by both filename grammars (lines 140-144 and
189-192): cut from `_KEY_` and `_BPM_` on, replace underscores with
spaces, strip; fall back to the stripped base name when empty. -/
def parseTitle (tail base : Str) : Str :=
  let t := cutMarker (str "_BPM_") (cutMarker (str "_KEY_") tail)
  let t := pyStrip (t.map (fun c => if c = '_' then ' ' else c))
  if t = [] then base else t

/-- `_parse_filename_piecewise` (lines 115-149):
`<specifics>_X_<TITLE>_KEY_<key>_BPM_<bpm>.<ext>`.  `none` models the
`ValueError` escaping from the `int()` call of the BPM leg. -/
def parse_filename_piecewise (filename : Str) : Option Meta :=
  let base := stripExt filename
  let parts := splitX base
  let pre := parts.getD 0 []
  let tail := parts.getD 1 []
  let sp_from_name := (splitU pre).filter (fun t => t ≠ [])
  match parseBpm tail with
  | none => none
  | some bpm =>
    some { sample_type := []
           genres := []
           generals := []
           specifics := sp_from_name
           title := parseTitle tail base
           key := parseKey tail
           bpm := bpm }

/-- `re.sub(r"^GENERO_", "", graw, flags=re.I)`. -/
def stripGenero (graw : Str) : Str :=
  match matchCI (str "GENERO_") graw with
  | some rest => rest
  | none => graw

/-- `_parse_legacy_filename` (lines 151-197):
`ONESHOT_GENERO_house_X_drums_X_clap_snare_X_JAUS_KEY_NO_BPM_120.wav`.
`none` models the `ValueError` escaping from the `int()` call of the
BPM leg. -/
def parse_legacy_filename (filename : Str) : Option Meta :=
  let base0 := stripExt filename
  let st_base : Str × Str :=
    if (str "ONESHOT_").isPrefixOf (pyUpper base0) then (str "oneshot", base0.drop 8)
    else if (str "LOOP_").isPrefixOf (pyUpper base0) then (str "loop", base0.drop 5)
    else ([], base0)
  let sample_type := st_base.1
  let base := st_base.2
  let parts := splitX base
  let graw := pyStrip (parts.getD 0 [])
  let genres := (splitU (stripGenero graw)).filter (fun t => t ≠ [])
  let gr := pyStrip (parts.getD 1 [])
  let generals := (splitU gr).filter (fun t => t ≠ [])
  let sp := pyStrip (parts.getD 2 [])
  let specifics := (splitU sp).filter (fun t => t ≠ [])
  let tail := if parts.length > 3 then joinX (parts.drop 3) else []
  match parseBpm tail with
  | none => none
  | some bpm =>
    some { sample_type := sample_type
           genres := genres
           generals := generals
           specifics := specifics
           title := parseTitle tail base
           key := parseKey tail
           bpm := bpm }

/-- The merge section of `parse_from_path` (lines 100-111): overwrite
each facet when the folder hierarchy supplied one, prepend-deduplicate
the folder specifics, then clean the title. -/
def mergeMeta (sample_type : Str) (genres generals specifics : List Str)
    (m : Meta) : Meta :=
  let m1 := if sample_type ≠ [] then { m with sample_type := sample_type } else m
  let m2 := if genres ≠ [] then { m1 with genres := genres } else m1
  let m3 := if generals ≠ [] then { m2 with generals := generals } else m2
  let m4 :=
    if specifics ≠ [] then
      { m3 with specifics := dedupFirst (specifics ++ m3.specifics) }
    else m3
  { m4 with title := clean_title m4.title }

/-- Does the leading path segment name a sample type
(`parts[0].upper() in ("ONESHOT", "LOOP")`)? -/
def isTypeSeg (s : Str) : Bool :=
  pyUpper s = str "ONESHOT" || pyUpper s = str "LOOP"

/-- `parse_from_path` (lines 72-113).  A path is embedded as its list of
segments relative to the scan root (`rel.parts`); the final segment is
the file name.  A file path always has at least one segment.  `none`
models a `ValueError` propagating out of the filename sub-parsers (the
function's own `try` wraps only `relative_to`). -/
def parse_from_path (parts : List Str) : Option Meta :=
  if 2 ≤ parts.length ∧ isTypeSeg (parts.getD 0 []) = true then
    let sample_type := pyLower (parts.getD 0 [])
    let genres := [parts.getD 1 []]
    let generals := if 3 ≤ parts.length then [parts.getD 2 []] else []
    let specifics := if 4 < parts.length then (parts.drop 3).dropLast else []
    (parse_filename_piecewise (parts.getLastD [])).map
      (mergeMeta sample_type genres generals specifics)
  else
    (parse_legacy_filename (parts.getLastD [])).map (mergeMeta [] [] [] [])

/-! ## Tag index and catalog records (`_load_samples`, lines 1096-1126) -/

/-- One catalog record, as assembled in `_load_samples`: the parsed
facets plus the derived flat tag list and the normalized search
haystack.  `tags` is the source's `tags_flat` list; the Python set
`info["tagset"]` is recovered by `tagset` below. -/
structure Sample where
  filename : Str
  title : Str
  sample_type : Str
  key : Str
  bpm : Nat
  tags : List Str
  haystack : Str
deriving DecidableEq, Repr

/-- `info["tagset"] = set(tags_flat)`. -/
def tagset (s : Sample) : Finset Str := s.tags.toFinset

/-- `tags_flat` (lines 1103-1109): genres, generals and specifics, plus
key, sample type and the bpm rendered in decimal when each is set. -/
def tags_flat (m : Meta) : List Str :=
  m.genres ++ m.generals ++ m.specifics
    ++ (if m.key ≠ [] then [m.key] else [])
    ++ (if m.sample_type ≠ [] then [m.sample_type] else [])
    ++ (if m.bpm ≠ 0 then [Nat.toDigits 10 m.bpm] else [])

/-- Python `" ".join(parts)`. -/
def joinSpace : List Str → Str
  | [] => []
  | [s] => s
  | s :: rest => s ++ ' ' :: joinSpace rest

/-- Build the catalog record for one file (lines 1100-1119): `p.name`
is the file name (the final path segment). -/
def mkSample (p_name : Str) (m : Meta) : Sample :=
  { filename := p_name
    title := m.title
    sample_type := m.sample_type
    key := m.key
    bpm := m.bpm
    tags := tags_flat m
    haystack := strip_accents_lower (joinSpace (tags_flat m ++ [m.title, p_name])) }

/-! ## Filter state and the filter predicate (`_apply_filters`, lines 1205-1257) -/

/-- The filter criteria held on `MainWindow` (lines 939-949), plus the
search tokens.  `filter_bpm_exact = 0` means "no exact filter";
`filter_type = ""` and empty sets mean the criterion is inactive. -/
structure FilterState where
  search_tokens : List Str
  include_tags : Finset Str
  exclude_tags : Finset Str
  filter_type : Str
  filter_keys : Finset Str
  filter_bpm_min : Nat
  filter_bpm_max : Nat
  filter_bpm_exact : Nat

/-- The state installed by `MainWindow.__init__` (lines 939-949), in
force when the window first opens. -/
def initialFilterState : FilterState :=
  { search_tokens := []
    include_tags := ∅
    exclude_tags := ∅
    filter_type := []
    filter_keys := ∅
    filter_bpm_min := 1
    filter_bpm_max := 300
    filter_bpm_exact := 0 }

/-- Free-text criterion (lines 1212-1213): every token must be a
substring of the haystack. -/
def passesText (tokens : List Str) (hay : Str) : Bool :=
  tokens.all (fun tok => isSubstr tok hay)

/-- Tag criterion (lines 1216-1217): a non-empty include set must be a
subset of the record's tag set, and a non-empty exclude set must not
intersect it. -/
def passesTags (incl excl T : Finset Str) : Bool :=
  (decide (incl = ∅) || decide (incl ⊆ T))
    && (decide (excl = ∅) || decide (excl ∩ T = ∅))

/-- Sample-type criterion (lines 1220-1221). -/
def passesType (ft st : Str) : Bool :=
  decide (ft = []) || decide (st = ft)

/-- Key criterion (lines 1224-1226): with a non-empty filter set, the
record's key must be non-empty and a member of the set. -/
def passesKey (keys : Finset Str) (k : Str) : Bool :=
  decide (keys = ∅) || (decide (k ≠ []) && decide (k ∈ keys))

/-- BPM criterion (lines 1229-1235): a non-zero exact filter requires
equality; otherwise a record with `bpm = 0` passes and a record with
`bpm > 0` must lie within the min/max range. -/
def passesBpm (mn mx exact bpm : Nat) : Bool :=
  if exact ≠ 0 then decide (bpm = exact)
  else decide (bpm = 0) || (decide (mn ≤ bpm) && decide (bpm ≤ mx))

/-- The per-record filter predicate of `_apply_filters` (lines
1209-1235): the conjunction of the five criteria, in source order. -/
def visibleB (fs : FilterState) (s : Sample) : Bool :=
  passesText fs.search_tokens s.haystack
    && passesTags fs.include_tags fs.exclude_tags (tagset s)
    && passesType fs.filter_type s.sample_type
    && passesKey fs.filter_keys s.key
    && passesBpm fs.filter_bpm_min fs.filter_bpm_max fs.filter_bpm_exact s.bpm

/-! ## The visible ordering (lines 1240-1247)

`visible_rows.sort(key=lambda r: (0 if fav else 1,
strip_accents_lower(title)))`: Python's `list.sort` is the stable
ascending sort by the key tuple, tuples comparing lexicographically and
strings by code point.  We model it with `List.insertionSort` over the
total preorder `rowLE` induced by the same key; inserting an element
before the first strictly-greater one reproduces exactly the stable
ascending order. -/

/-- Code-point lexicographic `≤` on strings (Python string comparison). -/
def strLE : Str → Str → Bool
  | [], _ => true
  | _ :: _, [] => false
  | a :: as, b :: bs =>
    if a.toNat < b.toNat then true
    else if b.toNat < a.toNat then false
    else strLE as bs

/-- Lexicographic `≤` on the sort key `(favorite rank, title key)`. -/
def keyLE (x y : Nat × Str) : Bool :=
  if x.1 < y.1 then true
  else if y.1 < x.1 then false
  else strLE x.2 y.2

/-- `0 if r.info["filename"] in self.favorites else 1` (line 1241). -/
def favNum (favorites : Finset Str) (s : Sample) : Nat :=
  if s.filename ∈ favorites then 0 else 1

/-- The sort key of line 1241-1242. -/
def sortKey (favorites : Finset Str) (s : Sample) : Nat × Str :=
  (favNum favorites s, strip_accents_lower s.title)

/-- The ordering relation used for the visible list. -/
def rowLE (favorites : Finset Str) (a b : Sample) : Prop :=
  keyLE (sortKey favorites a) (sortKey favorites b) = true

instance (favorites : Finset Str) : DecidableRel (rowLE favorites) :=
  fun _ _ => instDecidableEqBool _ _

/-- `_apply_filters`' visible result: filter the catalog in scan order,
then stable-sort favorites first and titles ascending. -/
def visibleOrder (favorites : Finset Str) (fs : FilterState)
    (samples : List Sample) : List Sample :=
  (samples.filter (fun s => visibleB fs s)).insertionSort (rowLE favorites)

/-! ## Tag suggestions (`_refresh_tag_suggestions`, lines 1259-1268, and
`TagRow.setData`, lines 877-879)

The `Counter` iterates each visible record's tag set once, skipping
active tags; `setData` sorts by `(-count, tag)`.  Distinct tags have
distinct sort keys, so the sorted output does not depend on the
(unspecified) Python set/Counter iteration order; we enumerate candidate
tags in first-seen scan order. -/

/-- Number of visible records whose tag set contains `t` (each record
counts once: the Counter iterates the record's `set`). -/
def tagCount (vis : List Sample) (t : Str) : Nat :=
  (vis.filter (fun s => decide (t ∈ s.tags))).length

/-- The distinct tags of the visible records that are not active
(lines 1264-1266 and the `ignored` filter of `setData`). -/
def candidateTags (vis : List Sample) (incl excl : Finset Str) : List Str :=
  (dedupFirst (vis.map Sample.tags).flatten).filter
    (fun t => decide (t ∉ incl) && decide (t ∉ excl))

/-- `setData`'s sort key order (line 878): count descending, then tag
ascending by code point. -/
def suggLE (a b : Str × Nat) : Prop :=
  (decide (b.2 < a.2) || (decide (a.2 = b.2) && strLE a.1 b.1)) = true

instance : DecidableRel suggLE := fun _ _ => instDecidableEqBool _ _

/-- The suggestion list shown to the user: every inactive tag of a
visible record, with its occurrence count, sorted by `(-count, tag)`. -/
def computeSuggestions (vis : List Sample) (incl excl : Finset Str) :
    List (Str × Nat) :=
  ((candidateTags vis incl excl).map (fun t => (t, tagCount vis t))).insertionSort
    suggLE

/-! ## Order lemmas for the sort relations -/

theorem strLE_refl (a : Str) : strLE a a = true := by
  induction a with
  | nil => rfl
  | cons x xs ih => simp [strLE, ih]

theorem strLE_total (a b : Str) : strLE a b = true ∨ strLE b a = true := by
  induction a generalizing b with
  | nil => exact Or.inl rfl
  | cons x xs ih =>
    cases b with
    | nil => exact Or.inr rfl
    | cons y ys =>
      rcases Nat.lt_trichotomy x.toNat y.toNat with h | h | h
      · left; simp [strLE, h]
      · rcases ih ys with hs | hs
        · left; simp [strLE, h, hs]
        · right; simp [strLE, h, hs]
      · right; simp [strLE, h]

theorem strLE_trans {a b c : Str} (h1 : strLE a b = true) (h2 : strLE b c = true) :
    strLE a c = true := by
  induction a generalizing b c with
  | nil => rfl
  | cons x xs ih =>
    cases b with
    | nil => simp [strLE] at h1
    | cons y ys =>
      cases c with
      | nil => simp [strLE] at h2
      | cons z zs =>
        simp only [strLE] at h1 h2 ⊢
        rcases Nat.lt_trichotomy x.toNat y.toNat with hxy | hxy | hxy <;>
          rcases Nat.lt_trichotomy y.toNat z.toNat with hyz | hyz | hyz
        · rw [if_pos (by omega)]
        · rw [if_pos (by omega)]
        · rw [if_neg (by omega), if_pos hyz] at h2; exact absurd h2 (by simp)
        · rw [if_pos (by omega)]
        · rw [if_neg (by omega), if_neg (by omega)]
          rw [if_neg (by omega), if_neg (by omega)] at h1
          rw [if_neg (by omega), if_neg (by omega)] at h2
          exact ih h1 h2
        · rw [if_neg (by omega), if_pos hyz] at h2; exact absurd h2 (by simp)
        · rw [if_neg (by omega), if_pos hxy] at h1; exact absurd h1 (by simp)
        · rw [if_neg (by omega), if_pos hxy] at h1; exact absurd h1 (by simp)
        · rw [if_neg (by omega), if_pos hxy] at h1; exact absurd h1 (by simp)

theorem keyLE_refl (x : Nat × Str) : keyLE x x = true := by
  unfold keyLE
  rw [if_neg (by omega), if_neg (by omega)]
  exact strLE_refl x.2

theorem keyLE_total (x y : Nat × Str) : keyLE x y = true ∨ keyLE y x = true := by
  unfold keyLE
  rcases Nat.lt_trichotomy x.1 y.1 with h | h | h
  · left; rw [if_pos h]
  · rcases strLE_total x.2 y.2 with hs | hs
    · left; rw [if_neg (by omega), if_neg (by omega)]; exact hs
    · right; rw [if_neg (by omega), if_neg (by omega)]; exact hs
  · right; rw [if_pos h]

theorem keyLE_trans {x y z : Nat × Str} (h1 : keyLE x y = true) (h2 : keyLE y z = true) :
    keyLE x z = true := by
  unfold keyLE at h1 h2 ⊢
  rcases Nat.lt_trichotomy x.1 y.1 with hxy | hxy | hxy <;>
    rcases Nat.lt_trichotomy y.1 z.1 with hyz | hyz | hyz
  · rw [if_pos (by omega)]
  · rw [if_pos (by omega)]
  · rw [if_neg (by omega), if_pos hyz] at h2; exact absurd h2 (by simp)
  · rw [if_pos (by omega)]
  · rw [if_neg (by omega), if_neg (by omega)]
    rw [if_neg (by omega), if_neg (by omega)] at h1
    rw [if_neg (by omega), if_neg (by omega)] at h2
    exact strLE_trans h1 h2
  · rw [if_neg (by omega), if_pos hyz] at h2; exact absurd h2 (by simp)
  · rw [if_neg (by omega), if_pos hxy] at h1; exact absurd h1 (by simp)
  · rw [if_neg (by omega), if_pos hxy] at h1; exact absurd h1 (by simp)
  · rw [if_neg (by omega), if_pos hxy] at h1; exact absurd h1 (by simp)

theorem keyLE_fst_le {x y : Nat × Str} (h : keyLE x y = true) : x.1 ≤ y.1 := by
  unfold keyLE at h
  rcases Nat.lt_trichotomy x.1 y.1 with hl | hl | hl
  · omega
  · omega
  · rw [if_neg (by omega), if_pos hl] at h; exact absurd h (by simp)

theorem keyLE_snd_of_fst_eq {x y : Nat × Str} (h : keyLE x y = true)
    (he : x.1 = y.1) : strLE x.2 y.2 = true := by
  unfold keyLE at h
  rw [if_neg (by omega), if_neg (by omega)] at h
  exact h

instance (favorites : Finset Str) : IsTotal Sample (rowLE favorites) :=
  ⟨fun a b => keyLE_total (sortKey favorites a) (sortKey favorites b)⟩

instance (favorites : Finset Str) : IsTrans Sample (rowLE favorites) :=
  ⟨fun _ _ _ h1 h2 => keyLE_trans h1 h2⟩

theorem suggLE_iff (a b : Str × Nat) :
    suggLE a b ↔ b.2 < a.2 ∨ (a.2 = b.2 ∧ strLE a.1 b.1 = true) := by
  unfold suggLE
  simp [Bool.or_eq_true, Bool.and_eq_true, decide_eq_true_eq]

instance : IsTotal (Str × Nat) suggLE := by
  refine ⟨fun a b => ?_⟩
  rw [suggLE_iff, suggLE_iff]
  rcases Nat.lt_trichotomy a.2 b.2 with h | h | h
  · right; left; omega
  · rcases strLE_total a.1 b.1 with hs | hs
    · left; right; exact ⟨h, hs⟩
    · right; right; exact ⟨h.symm, hs⟩
  · left; left; omega

instance : IsTrans (Str × Nat) suggLE := by
  refine ⟨fun a b c h1 h2 => ?_⟩
  rw [suggLE_iff] at h1 h2 ⊢
  rcases h1 with h1 | ⟨h1, hs1⟩
  · rcases h2 with h2 | ⟨h2, _⟩
    · left; omega
    · left; omega
  · rcases h2 with h2 | ⟨h2, hs2⟩
    · left; omega
    · right; exact ⟨h1.trans h2, strLE_trans hs1 hs2⟩

/-! ## Membership and deduplication lemmas -/

theorem mem_dedupFirstAux {α : Type} [DecidableEq α] (l : List α) :
    ∀ (seen : List α) (a : α), a ∈ dedupFirstAux seen l ↔ a ∈ l ∧ a ∉ seen := by
  induction l with
  | nil => intro seen a; simp [dedupFirstAux]
  | cons b l ih =>
    intro seen a
    by_cases hb : b ∈ seen
    · rw [dedupFirstAux, if_pos hb, ih]
      constructor
      · rintro ⟨h1, h2⟩; exact ⟨List.mem_cons_of_mem b h1, h2⟩
      · rintro ⟨h1, h2⟩
        rcases List.mem_cons.mp h1 with rfl | h1
        · exact absurd hb h2
        · exact ⟨h1, h2⟩
    · rw [dedupFirstAux, if_neg hb]
      constructor
      · intro h
        rcases List.mem_cons.mp h with rfl | h
        · exact ⟨List.mem_cons_self a l, hb⟩
        · obtain ⟨h1, h2⟩ := (ih (b :: seen) a).mp h
          refine ⟨List.mem_cons_of_mem b h1, fun hs => h2 (List.mem_cons_of_mem b hs)⟩
      · rintro ⟨h1, h2⟩
        rcases List.mem_cons.mp h1 with rfl | h1
        · exact List.mem_cons_self a _
        · by_cases hab : a = b
          · subst hab; exact List.mem_cons_self a _
          · exact List.mem_cons_of_mem b ((ih (b :: seen) a).mpr
              ⟨h1, fun hs => (List.mem_cons.mp hs).elim hab h2⟩)

theorem nodup_dedupFirstAux {α : Type} [DecidableEq α] (l : List α) :
    ∀ seen : List α, (dedupFirstAux seen l).Nodup := by
  induction l with
  | nil => intro seen; exact List.nodup_nil
  | cons b l ih =>
    intro seen
    by_cases hb : b ∈ seen
    · rw [dedupFirstAux, if_pos hb]; exact ih seen
    · rw [dedupFirstAux, if_neg hb]
      refine List.nodup_cons.mpr ⟨fun hmem => ?_, ih (b :: seen)⟩
      exact ((mem_dedupFirstAux l (b :: seen) b).mp hmem).2 (List.mem_cons_self b seen)

theorem mem_dedupFirst {α : Type} [DecidableEq α] (l : List α) (a : α) :
    a ∈ dedupFirst l ↔ a ∈ l := by
  rw [dedupFirst, mem_dedupFirstAux]
  simp

theorem nodup_dedupFirst {α : Type} [DecidableEq α] (l : List α) :
    (dedupFirst l).Nodup :=
  nodup_dedupFirstAux l []

/-! ## String lemmas for marker-free inputs -/

theorem splitXAux_cons_ne (c : Char) (cs acc : Str) (hc : c ≠ '_') :
    splitXAux (c :: cs) acc = splitXAux cs (c :: acc) := by
  conv_lhs => rw [splitXAux.eq_def]
  split
  · exfalso; simp_all
  · simp_all
  · simp_all

theorem splitXAux_no_sep : ∀ (s acc : Str), '_' ∉ s →
    splitXAux s acc = [acc.reverse ++ s]
  | [], acc, _ => by simp [splitXAux]
  | c :: cs, acc, h => by
    have hc : c ≠ '_' := fun he => h (he ▸ List.mem_cons_self c cs)
    have hcs : '_' ∉ cs := fun hm => h (List.mem_cons_of_mem c hm)
    rw [splitXAux_cons_ne c cs acc hc, splitXAux_no_sep cs (c :: acc) hcs]
    simp

theorem splitX_no_sep (s : Str) (h : '_' ∉ s) : splitX s = [s] := by
  rw [splitX, splitXAux_no_sep s [] h]
  rfl

theorem splitUAux_no_sep : ∀ (s acc : Str), '_' ∉ s →
    splitUAux s acc = [acc.reverse ++ s]
  | [], acc, _ => by simp [splitUAux]
  | c :: cs, acc, h => by
    have hc : c ≠ '_' := fun he => h (he ▸ List.mem_cons_self c cs)
    have hcs : '_' ∉ cs := fun hm => h (List.mem_cons_of_mem c hm)
    rw [splitUAux, if_neg hc, splitUAux_no_sep cs (c :: acc) hcs]
    simp

theorem splitU_no_sep (s : Str) (h : '_' ∉ s) : splitU s = [s] := by
  rw [splitU, splitUAux_no_sep s [] h]
  rfl

theorem takeWhile_eq_self_of_all {p : Char → Bool} (l : Str)
    (h : ∀ c ∈ l, p c = true) : l.takeWhile p = l := by
  induction l with
  | nil => rfl
  | cons c cs ih =>
    rw [List.takeWhile_cons, if_pos (h c (List.mem_cons_self c cs)),
      ih (fun x hx => h x (List.mem_cons_of_mem c hx))]

theorem dropWhile_eq_self_of_all {p : Char → Bool} (l : Str)
    (h : ∀ c ∈ l, p c = false) : l.dropWhile p = l := by
  cases l with
  | nil => rfl
  | cons c cs => simp [List.dropWhile_cons, h c (List.mem_cons_self c cs)]

theorem pyStrip_eq_self (s : Str) (h : ∀ c ∈ s, isPySpace c = false) :
    pyStrip s = s := by
  unfold pyStrip
  rw [dropWhile_eq_self_of_all s h,
    dropWhile_eq_self_of_all s.reverse (fun c hc => h c (List.mem_reverse.mp hc)),
    List.reverse_reverse]

theorem stripExt_no_dot (s : Str) (h : '.' ∉ s) : stripExt s = s := by
  simp only [stripExt]
  have hall : ∀ c ∈ s.reverse, (fun c => decide (c ≠ '.')) c = true := by
    intro c hc
    simp only [decide_eq_true_eq]
    intro he
    exact h (List.mem_reverse.mp (he ▸ hc))
  rw [takeWhile_eq_self_of_all s.reverse hall]
  simp

theorem isPrefixOf_eq_false_of_missing {l s : Str} {c : Char}
    (hcl : c ∈ l) (hcs : c ∉ s) : l.isPrefixOf s = false := by
  cases hb : l.isPrefixOf s with
  | false => rfl
  | true =>
    exact absurd (List.Sublist.mem hcl
      (List.isPrefixOf_iff_prefix.mp hb).sublist) hcs

theorem matchCI_chars : ∀ (m s r : Str), matchCI m s = some r →
    ∀ c ∈ m, ∃ d ∈ s, d.toUpper = c.toUpper
  | [], _, _, _, c, hc => absurd hc (List.not_mem_nil c)
  | _ :: _, [], _, h, _, _ => by simp [matchCI] at h
  | mh :: ms, sh :: ss, r, h, c, hc => by
    unfold matchCI at h
    by_cases he : sh.toUpper = mh.toUpper
    · rw [if_pos he] at h
      rcases List.mem_cons.mp hc with rfl | hc'
      · exact ⟨sh, List.mem_cons_self sh ss, he⟩
      · obtain ⟨d, hd, hde⟩ := matchCI_chars ms ss r h c hc'
        exact ⟨d, List.mem_cons_of_mem sh hd, hde⟩
    · rw [if_neg he] at h
      exact absurd h (by simp)

theorem stripGenero_eq_self (f : Str) (h : ∀ c ∈ f, c.toUpper ≠ '_') :
    stripGenero f = f := by
  unfold stripGenero
  cases hm : matchCI (str "GENERO_") f with
  | none => rfl
  | some rest =>
    obtain ⟨d, hd, hde⟩ := matchCI_chars _ _ _ hm '_' (by decide)
    exact absurd (by simpa using hde) (h d hd)

theorem clean_title_eq_self (f : Str) (hne : f ≠ [])
    (hsp : ∀ c ∈ f, isPySpace c = false)
    (hlast : Char.isDigit (f.getLastD ' ') = false) : clean_title f = f := by
  simp only [clean_title]
  rw [dropWhile_eq_self_of_all f.reverse
    (fun c hc => hsp c (List.mem_reverse.mp hc))]
  have h2 : f.reverse.takeWhile Char.isDigit = [] := by
    cases hrev : f.reverse with
    | nil => rfl
    | cons c cs =>
      have hc : c = f.getLastD ' ' := by
        have h3 : f.reverse.head? = some c := by rw [hrev]; rfl
        rw [List.head?_reverse] at h3
        rw [List.getLastD_eq_getLast?, h3]
        rfl
      rw [List.takeWhile_cons, if_neg (by rw [hc, hlast]; simp)]
  rw [h2, if_pos rfl, pyStrip_eq_self f hsp, if_neg hne]

/-! ## Claim theorems -/

/-- C2: for scan root `R`, parsing
`R/ONESHOT/trap/drums/kick_X_808 mafia 1_KEY_NO_BPM_NO.wav` via the
folder-hierarchy grammar yields sampleType `"oneshot"`,
genres `["trap"]`, generals `["drums"]`, specifics `["kick"]`,
title `"808 mafia"`, no key, bpm 0 (unset). -/
theorem c2_folder_grammar_example :
    parse_from_path [str "ONESHOT", str "trap", str "drums",
        str "kick_X_808 mafia 1_KEY_NO_BPM_NO.wav"]
      = some { sample_type := str "oneshot", genres := [str "trap"],
               generals := [str "drums"], specifics := [str "kick"],
               title := str "808 mafia", key := [], bpm := 0 } := by decide

/-- C3: the filename
`ONESHOT_GENERO_house_X_drums_X_clap_snare_X_JAUS_KEY_NO_BPM_120.wav`,
which matches no folder hierarchy, parses through the legacy flat
grammar to sampleType `"oneshot"`, genres `["house"]`,
generals `["drums"]`, specifics `["clap", "snare"]`, title `"JAUS"`,
no key, bpm 120. -/
theorem c3_legacy_grammar_example :
    parse_from_path
        [str "ONESHOT_GENERO_house_X_drums_X_clap_snare_X_JAUS_KEY_NO_BPM_120.wav"]
      = some { sample_type := str "oneshot", genres := [str "house"],
               generals := [str "drums"], specifics := [str "clap", str "snare"],
               title := str "JAUS", key := [], bpm := 120 } := by decide

/-- C1 counterexample: `foo.wav` exhibits neither grammar's markers (no
type folder or prefix, no `_X_`, no `KEY_`/`BPM_`), yet the parser does
not return maximally-empty facets with the raw filename as title: the
base name becomes a genre and the title drops the extension. -/
theorem c1_counterexample :
    parse_from_path [str "foo.wav"]
        = some { sample_type := [], genres := [str "foo"], generals := [],
                 specifics := [], title := str "foo", key := [], bpm := 0 }
      ∧ ([str "foo"] : List Str) ≠ []
      ∧ str "foo" ≠ str "foo.wav" := by decide

/-- C6 counterexample: the startup filter state keeps the default BPM
range 1-300 active, so a record with bpm 301 — producible by the parser
— is already filtered out before the user touches anything. -/
theorem c6_counterexample :
    (parse_from_path [str "ONESHOT", str "trap", str "drums",
        str "kick_X_t_BPM_301.wav"]).map
      (fun m => visibleB initialFilterState
        (mkSample (str "kick_X_t_BPM_301.wav") m)) = some false := by decide

/-- C9 counterexample: a duplicated token in the filename prefix
survives into `specifics` when no folder-derived specifics trigger the
deduplicating merge. -/
theorem c9_counterexample :
    (parse_from_path [str "ONESHOT", str "g", str "gen",
        str "kick_kick_X_t.wav"]).map Meta.specifics
        = some [str "kick", str "kick"]
      ∧ ¬ ([str "kick", str "kick"] : List Str).Nodup := by decide

/-- C10: the parser uppercases key values (`KEY_Bb` becomes `"BB"`),
while the key-filter popover emits flat-key labels such as `"Bb"`; the
key criterion compares raw strings, so a record tagged `KEY_Bb` fails
the filter set `{"Bb"}` — flat-key filtering can never match. -/
theorem c10_flat_key_mismatch :
    (parse_from_path [str "ONESHOT", str "trap", str "drums",
        str "kick_X_tune_KEY_Bb_BPM_NO.wav"]).map Meta.key = some (str "BB")
      ∧ (parse_from_path [str "ONESHOT", str "trap", str "drums",
          str "kick_X_tune_KEY_Bb_BPM_NO.wav"]).map
          (fun m => passesKey {str "Bb"}
            (mkSample (str "kick_X_tune_KEY_Bb_BPM_NO.wav") m).key)
        = some false := by decide

/-- C8 counterexample: suggestion ties are broken on the raw tag by code
point, not case/accent-insensitively — with equal counts the output
puts `"B"` before `"a"` although `"a"` strictly precedes `"B"` under
the case-insensitive key. -/
theorem c8_counterexample :
    computeSuggestions
        [{ filename := str "x.wav", title := str "t", sample_type := [],
           key := [], bpm := 0, tags := [str "B", str "a"], haystack := [] }]
        ∅ ∅
        = [(str "B", 1), (str "a", 1)]
      ∧ strLE (strip_accents_lower (str "a")) (strip_accents_lower (str "B")) = true
      ∧ strip_accents_lower (str "a") ≠ strip_accents_lower (str "B") := by decide

/-- C4: for every record tag set `T` and disjoint tag sets `I`
(included) and `E` (excluded), the tag-filtering step passes `T` if and
only if `I ⊆ T` and `E ∩ T = ∅`. -/
theorem c4_tag_filter_iff (I E T : Finset Str) (_hd : I ∩ E = ∅) :
    passesTags I E T = true ↔ I ⊆ T ∧ E ∩ T = ∅ := by
  unfold passesTags
  simp only [Bool.and_eq_true, Bool.or_eq_true, decide_eq_true_eq]
  constructor
  · rintro ⟨hI, hE⟩
    refine ⟨?_, ?_⟩
    · rcases hI with h | h
      · subst h; exact Finset.empty_subset T
      · exact h
    · rcases hE with h | h
      · subst h; simp
      · exact h
  · rintro ⟨h1, h2⟩
    exact ⟨Or.inr h1, Or.inr h2⟩

/-- Witness for C4 at concrete sets. -/
theorem c4_witness :
    passesTags {str "a"} {str "b"} {str "a", str "c"} = true
      ↔ ({str "a"} : Finset Str) ⊆ {str "a", str "c"}
        ∧ ({str "b"} : Finset Str) ∩ {str "a", str "c"} = ∅ :=
  c4_tag_filter_iff _ _ _ (by decide)

/-- C6 (amended): in the startup filter state every record whose bpm is
at most 300 passes the filter predicate; the default BPM range 1-300
stays active, so records with bpm above 300 are excluded (see the C6
counterexample). -/
theorem c6_amended (s : Sample) (h : s.bpm ≤ 300) :
    visibleB initialFilterState s = true := by
  have hb : passesBpm 1 300 0 s.bpm = true := by
    unfold passesBpm
    rw [if_neg (by omega)]
    rcases Nat.eq_zero_or_pos s.bpm with h0 | h0
    · simp [h0]
    · simp only [Bool.or_eq_true, Bool.and_eq_true, decide_eq_true_eq]
      right; omega
  simp [visibleB, initialFilterState, passesText, passesTags, passesType,
    passesKey, hb]

/-- Witness for C6 (amended) at a concrete record. -/
theorem c6_witness :
    visibleB initialFilterState
      { filename := str "a.wav", title := str "a", sample_type := [],
        key := [], bpm := 0, tags := [], haystack := [] } = true :=
  c6_amended _ (by decide)

/-- C7: under the BPM criterion, a record with bpm 0 always passes an
active range filter, a record with positive bpm passes iff it lies in
the inclusive range, a record with bpm 0 always fails an active exact
filter, and under an active exact filter exactly the records whose bpm
equals the filter value pass. -/
theorem c7_bpm_criterion (mn mx exact bpm : Nat) :
    passesBpm mn mx 0 0 = true
      ∧ (0 < bpm → (passesBpm mn mx 0 bpm = true ↔ mn ≤ bpm ∧ bpm ≤ mx))
      ∧ (0 < exact → passesBpm mn mx exact 0 = false)
      ∧ (0 < exact → (passesBpm mn mx exact bpm = true ↔ bpm = exact)) := by
  refine ⟨?_, ?_, ?_, ?_⟩
  · simp [passesBpm]
  · intro h
    unfold passesBpm
    rw [if_neg (by omega)]
    simp only [Bool.or_eq_true, Bool.and_eq_true, decide_eq_true_eq]
    omega
  · intro h
    unfold passesBpm
    rw [if_pos (by omega)]
    exact decide_eq_false (by omega)
  · intro h
    unfold passesBpm
    rw [if_pos (by omega)]
    simp

/-- Witness for C7 at concrete bounds and tempos. -/
theorem c7_witness :
    passesBpm 10 200 0 0 = true
      ∧ (passesBpm 10 200 0 120 = true ↔ 10 ≤ 120 ∧ 120 ≤ 200)
      ∧ passesBpm 10 200 128 0 = false
      ∧ (passesBpm 10 200 128 120 = true ↔ 120 = 128) :=
  let h := c7_bpm_criterion 10 200 128 120
  ⟨h.1, h.2.1 (by decide), h.2.2.1 (by decide), h.2.2.2 (by decide)⟩

/-! ## Stability of the visible sort

The sort key of two records can coincide; `list.sort` is stable, so
records with equal keys keep their scan order.  We prove the matching
fact for `List.insertionSort` over `rowLE`: filtering the sorted list
down to any fixed key value gives the same list as filtering the input.
-/

theorem filter_key_orderedInsert (favorites : Finset Str) (k : Nat × Str)
    (a : Sample) (l : List Sample) :
    (l.orderedInsert (rowLE favorites) a).filter
        (fun s => decide (sortKey favorites s = k))
      = if sortKey favorites a = k
        then a :: l.filter (fun s => decide (sortKey favorites s = k))
        else l.filter (fun s => decide (sortKey favorites s = k)) := by
  induction l with
  | nil =>
    by_cases ha : sortKey favorites a = k
    · simp [List.orderedInsert, ha]
    · simp [List.orderedInsert, ha]
  | cons b l ih =>
    simp only [List.orderedInsert]
    by_cases hr : rowLE favorites a b
    · rw [if_pos hr]
      by_cases ha : sortKey favorites a = k
      · simp [List.filter_cons, ha]
      · simp [List.filter_cons, ha]
    · rw [if_neg hr]
      by_cases ha : sortKey favorites a = k
      · have hbk : ¬ sortKey favorites b = k := by
          intro hbk
          refine hr ?_
          unfold rowLE
          rw [show sortKey favorites a = sortKey favorites b from ha.trans hbk.symm]
          exact keyLE_refl _
        simp [List.filter_cons, ha, hbk, ih]
      · simp [List.filter_cons, ha, ih]

theorem filter_key_insertionSort (favorites : Finset Str) (k : Nat × Str)
    (l : List Sample) :
    (l.insertionSort (rowLE favorites)).filter
        (fun s => decide (sortKey favorites s = k))
      = l.filter (fun s => decide (sortKey favorites s = k)) := by
  induction l with
  | nil => rfl
  | cons a l ih =>
    simp only [List.insertionSort]
    rw [filter_key_orderedInsert, ih, List.filter_cons]
    by_cases ha : sortKey favorites a = k
    · rw [if_pos ha, if_pos (by simp [ha])]
    · rw [if_neg ha, if_neg (by simp [ha])]

/-- C5: in the visible ordering, favorites sort strictly before
non-favorites (a favorite record never sits at a later position than a
non-favorite one), records with equal favorite status have titles
ascending under the case- and accent-insensitive key, and records with
identical sort keys keep their original scan order (the sort is
stable over the filtered list). -/
theorem c5_visible_ordering (favorites : Finset Str) (fs : FilterState)
    (samples : List Sample) :
    (∀ (i j : Nat) (hi : i < (visibleOrder favorites fs samples).length)
        (hj : j < (visibleOrder favorites fs samples).length), i < j →
        favNum favorites ((visibleOrder favorites fs samples).get ⟨j, hj⟩) = 0 →
        favNum favorites ((visibleOrder favorites fs samples).get ⟨i, hi⟩) = 0)
      ∧ (∀ (i j : Nat) (hi : i < (visibleOrder favorites fs samples).length)
          (hj : j < (visibleOrder favorites fs samples).length), i < j →
          favNum favorites ((visibleOrder favorites fs samples).get ⟨i, hi⟩)
            = favNum favorites ((visibleOrder favorites fs samples).get ⟨j, hj⟩) →
          strLE
            (strip_accents_lower
              ((visibleOrder favorites fs samples).get ⟨i, hi⟩).title)
            (strip_accents_lower
              ((visibleOrder favorites fs samples).get ⟨j, hj⟩).title) = true)
      ∧ (∀ k : Nat × Str,
          (visibleOrder favorites fs samples).filter
              (fun s => decide (sortKey favorites s = k))
            = (samples.filter (fun s => visibleB fs s)).filter
              (fun s => decide (sortKey favorites s = k))) := by
  have hs : (visibleOrder favorites fs samples).Sorted (rowLE favorites) :=
    List.sorted_insertionSort (rowLE favorites) _
  refine ⟨?_, ?_, ?_⟩
  · intro i j hi hj hij h0
    have hrel : rowLE favorites ((visibleOrder favorites fs samples).get ⟨i, hi⟩)
        ((visibleOrder favorites fs samples).get ⟨j, hj⟩) :=
      hs.rel_get_of_lt (Fin.mk_lt_mk.mpr hij)
    have hle := keyLE_fst_le hrel
    simp only [sortKey] at hle
    omega
  · intro i j hi hj hij he
    have hrel : rowLE favorites ((visibleOrder favorites fs samples).get ⟨i, hi⟩)
        ((visibleOrder favorites fs samples).get ⟨j, hj⟩) :=
      hs.rel_get_of_lt (Fin.mk_lt_mk.mpr hij)
    exact keyLE_snd_of_fst_eq hrel he
  · intro k
    exact filter_key_insertionSort favorites k _

/-- Witness for C5: with both records favorite, the record at position 0
of the concrete visible ordering is a favorite because position 1 holds
one. -/
theorem c5_witness :
    favNum {str "a.wav", str "b.wav"}
      ((visibleOrder {str "a.wav", str "b.wav"} initialFilterState
        [{ filename := str "a.wav", title := str "a", sample_type := [],
           key := [], bpm := 0, tags := [], haystack := [] },
         { filename := str "b.wav", title := str "b", sample_type := [],
           key := [], bpm := 0, tags := [], haystack := [] }]).get
        ⟨0, by decide⟩) = 0 :=
  (c5_visible_ordering {str "a.wav", str "b.wav"} initialFilterState
    [{ filename := str "a.wav", title := str "a", sample_type := [],
       key := [], bpm := 0, tags := [], haystack := [] },
     { filename := str "b.wav", title := str "b", sample_type := [],
       key := [], bpm := 0, tags := [], haystack := [] }]).1
    0 1 (by decide) (by decide) (by decide) (by decide)

theorem mem_flatten_tags (vis : List Sample) (t : Str) :
    t ∈ (vis.map Sample.tags).flatten ↔ ∃ s ∈ vis, t ∈ s.tags := by
  constructor
  · intro h
    obtain ⟨l, hl, ht⟩ := List.mem_flatten.mp h
    obtain ⟨s, hs, rfl⟩ := List.mem_map.mp hl
    exact ⟨s, hs, ht⟩
  · rintro ⟨s, hs, ht⟩
    exact List.mem_flatten.mpr ⟨s.tags, List.mem_map_of_mem Sample.tags hs, ht⟩

/-- C8 (amended): `computeSuggestions` over the visible subset returns
exactly the tags occurring in some visible record's tag set that are not
included or excluded, each paired with its occurrence count across
visible records, ordered by count descending with ties broken by the
raw tag value ascending in code-point order (case- and
accent-sensitive), and no tag listed twice. -/
theorem c8_amended (vis : List Sample) (incl excl : Finset Str) :
    (∀ p ∈ computeSuggestions vis incl excl,
        p.1 ∉ incl ∧ p.1 ∉ excl ∧ p.2 = tagCount vis p.1
          ∧ ∃ s ∈ vis, p.1 ∈ s.tags)
      ∧ (∀ t : Str, t ∉ incl → t ∉ excl → (∃ s ∈ vis, t ∈ s.tags) →
          (t, tagCount vis t) ∈ computeSuggestions vis incl excl)
      ∧ (computeSuggestions vis incl excl).Pairwise suggLE
      ∧ ((computeSuggestions vis incl excl).map Prod.fst).Nodup := by
  have hperm : List.Perm (computeSuggestions vis incl excl)
      ((candidateTags vis incl excl).map (fun t => (t, tagCount vis t))) :=
    List.perm_insertionSort suggLE _
  refine ⟨?_, ?_, ?_, ?_⟩
  · intro p hp
    obtain ⟨t, htc, rfl⟩ := List.mem_map.mp (hperm.mem_iff.mp hp)
    obtain ⟨htl, hti⟩ := List.mem_filter.mp htc
    simp only [Bool.and_eq_true, decide_eq_true_eq] at hti
    exact ⟨hti.1, hti.2, rfl,
      (mem_flatten_tags vis t).mp ((mem_dedupFirst _ t).mp htl)⟩
  · intro t h1 h2 h3
    refine hperm.mem_iff.mpr (List.mem_map_of_mem _ (List.mem_filter.mpr ⟨?_, ?_⟩))
    · exact (mem_dedupFirst _ t).mpr ((mem_flatten_tags vis t).mpr h3)
    · simp [h1, h2]
  · exact List.sorted_insertionSort suggLE _
  · have hmap : List.Perm ((computeSuggestions vis incl excl).map Prod.fst)
        (((candidateTags vis incl excl).map (fun t => (t, tagCount vis t))).map
          Prod.fst) :=
      hperm.map Prod.fst
    refine hmap.nodup_iff.mpr ?_
    rw [List.map_map]
    have hid : (Prod.fst ∘ fun t : Str => (t, tagCount vis t)) = (id : Str → Str) :=
      rfl
    rw [hid, List.map_id]
    exact (nodup_dedupFirst ((vis.map Sample.tags).flatten)).filter _

/-- Witness for C8 (amended): the tag of a concrete visible record,
inactive on both sides, appears in the suggestion output with its
count. -/
theorem c8_witness :
    (str "kick",
        tagCount
          [{ filename := str "x.wav", title := str "t", sample_type := [],
             key := [], bpm := 0, tags := [str "kick"], haystack := [] }]
          (str "kick"))
      ∈ computeSuggestions
          [{ filename := str "x.wav", title := str "t", sample_type := [],
             key := [], bpm := 0, tags := [str "kick"], haystack := [] }]
          ∅ ∅ :=
  (c8_amended
      [{ filename := str "x.wav", title := str "t", sample_type := [],
         key := [], bpm := 0, tags := [str "kick"], haystack := [] }]
      ∅ ∅).2.1
    (str "kick") (by decide) (by decide) (by decide)

/-! ## Merge-step projections -/

theorem mergeMeta_empty (m : Meta) :
    mergeMeta [] [] [] [] m = { m with title := clean_title m.title } := by
  simp [mergeMeta]

theorem mergeMeta_genres (st : Str) (g gen sp : List Str) (m : Meta) :
    (mergeMeta st g gen sp m).genres = if g ≠ [] then g else m.genres := by
  by_cases h1 : st ≠ [] <;> by_cases hg : g ≠ [] <;> by_cases hgen : gen ≠ [] <;>
    by_cases hsp : sp ≠ [] <;> simp [mergeMeta, h1, hg, hgen, hsp]

theorem mergeMeta_generals (st : Str) (g gen sp : List Str) (m : Meta) :
    (mergeMeta st g gen sp m).generals = if gen ≠ [] then gen else m.generals := by
  by_cases h1 : st ≠ [] <;> by_cases hg : g ≠ [] <;> by_cases hgen : gen ≠ [] <;>
    by_cases hsp : sp ≠ [] <;> simp [mergeMeta, h1, hg, hgen, hsp]

theorem mergeMeta_specifics (st : Str) (g gen sp : List Str) (m : Meta) :
    (mergeMeta st g gen sp m).specifics
      = if sp ≠ [] then dedupFirst (sp ++ m.specifics) else m.specifics := by
  by_cases h1 : st ≠ [] <;> by_cases hg : g ≠ [] <;> by_cases hgen : gen ≠ [] <;>
    by_cases hsp : sp ≠ [] <;> simp [mergeMeta, h1, hg, hgen, hsp]

/-- C1 (amended): the parser is not total — a filename whose BPM field
passes `str.isdigit` but is rejected by `int()` (such as `BPM_1²`)
raises `ValueError` out of `parse_from_path`, modelled as `none` — and
on an input exhibiting neither grammar's markers the degradation floor
is a best-effort record built from the extension-stripped base name,
not maximally-empty facets with the raw filename: for a single-segment
path whose filename has no underscore, no dot and no whitespace and
does not end in a digit, the result has the whole filename as its only
genre and as the title, with all other facets unset.  (Title equals the
raw filename only because such a name has no extension to strip; see
the C1 counterexample for `foo.wav`.) -/
theorem c1_amended (f : Str) (hne : f ≠ [])
    (hchar : ∀ c ∈ f, c.toUpper ≠ '_' ∧ c ≠ '.' ∧ isPySpace c = false)
    (hlast : Char.isDigit (f.getLastD ' ') = false) :
    parse_from_path [f]
        = some { sample_type := [], genres := [f], generals := [],
                 specifics := [], title := f, key := [], bpm := 0 }
      ∧ parse_from_path [str "ONESHOT", str "g", str "gen",
          str "kick_X_t_BPM_1².wav"] = none := by
  refine ⟨?_, by decide⟩
  have hund : '_' ∉ f := fun hm => (hchar '_' hm).1 (by decide)
  have hdot : '.' ∉ f := fun hm => (hchar '.' hm).2.1 rfl
  have hsp : ∀ c ∈ f, isPySpace c = false := fun c hc => (hchar c hc).2.2
  have hup : '_' ∉ pyUpper f := by
    intro hm
    obtain ⟨c, hc, he⟩ := List.mem_map.mp hm
    exact (hchar c hc).1 he
  have hleg : parse_legacy_filename f
      = some { sample_type := [], genres := [f], generals := [],
               specifics := [], title := f, key := [], bpm := 0 } := by
    have hpre1 : (str "ONESHOT_").isPrefixOf (pyUpper f) = false :=
      isPrefixOf_eq_false_of_missing (l := str "ONESHOT_") (by decide) hup
    have hpre2 : (str "LOOP_").isPrefixOf (pyUpper f) = false :=
      isPrefixOf_eq_false_of_missing (l := str "LOOP_") (by decide) hup
    have hk : parseKey [] = [] := rfl
    have hbpm : parseBpm [] = some 0 := rfl
    have ht : parseTitle [] f = f := rfl
    have hsplitU0 : splitU ([] : Str) = [[]] := rfl
    have hstrip0 : pyStrip ([] : Str) = [] := rfl
    simp only [parse_legacy_filename, stripExt_no_dot f hdot, hpre1, hpre2,
      splitX_no_sep f hund]
    simp [splitX_no_sep f hund, pyStrip_eq_self f hsp,
      stripGenero_eq_self f (fun c hc => (hchar c hc).1),
      splitU_no_sep f hund, hk, hbpm, ht, hne, hsplitU0, hstrip0]
  unfold parse_from_path
  rw [if_neg (by simp)]
  have hget : List.getLastD [f] ([] : Str) = f := rfl
  rw [hget, hleg]
  simp [mergeMeta_empty, clean_title_eq_self f hne hsp hlast]

/-- Witness for C1 (amended) at a concrete marker-free filename. -/
theorem c1_witness :
    parse_from_path [str "kick"]
      = some { sample_type := [], genres := [str "kick"], generals := [],
               specifics := [], title := str "kick", key := [], bpm := 0 } :=
  (c1_amended (str "kick") (by decide) (by decide) (by decide)).1

theorem parse_filename_piecewise_generals {f : Str} {m : Meta}
    (h : parse_filename_piecewise f = some m) : m.generals = [] := by
  simp only [parse_filename_piecewise] at h
  cases hb : parseBpm ((splitX (stripExt f)).getD 1 []) with
  | none => rw [hb] at h; exact absurd h (by simp)
  | some bpm =>
    rw [hb] at h
    simp only [Option.some.injEq] at h
    subst h
    rfl

/-- C9 (amended): under the folder-hierarchy grammar, every record the
parser produces has duplicate-free `genres` and `generals` (they hold
at most one folder segment each), and whenever folder-derived specifics
are present the merged `specifics` list is deduplicated keeping first
occurrences.  Without folder-derived specifics the filename-prefix
tokens — and, under the legacy grammar, the genre/general/specific
token lists — are not deduplicated (see the C9 counterexample). -/
theorem c9_amended (parts : List Str) (h2 : 2 ≤ parts.length)
    (hty : isTypeSeg (parts.getD 0 []) = true) :
    ∀ m : Meta, parse_from_path parts = some m →
      m.genres.Nodup ∧ m.generals.Nodup
        ∧ (4 < parts.length → m.specifics.Nodup) := by
  intro m hm
  unfold parse_from_path at hm
  rw [if_pos ⟨h2, hty⟩] at hm
  cases hp : parse_filename_piecewise (parts.getLastD []) with
  | none => rw [hp] at hm; exact absurd hm (by simp)
  | some m0 =>
    rw [hp] at hm
    simp only [Option.map_some', Option.some.injEq] at hm
    subst hm
    refine ⟨?_, ?_, ?_⟩
    · rw [mergeMeta_genres]
      simp
    · rw [mergeMeta_generals]
      by_cases h3 : 3 ≤ parts.length
      · simp [h3]
      · simp [h3, parse_filename_piecewise_generals hp]
    · intro h5
      rw [mergeMeta_specifics]
      have hne' : (parts.drop 3).dropLast ≠ [] := by
        intro he
        have hlen := congrArg List.length he
        simp [List.length_dropLast, List.length_drop] at hlen
        omega
      simp only [h5, if_true, if_pos h5, ne_eq, hne', not_false_eq_true, if_pos]
      exact nodup_dedupFirst _

/-- Witness for C9 (amended) on a concrete folder path with duplicated
folder and filename specifics. -/
theorem c9_witness :
    ([str "g"] : List Str).Nodup
      ∧ ([str "gen"] : List Str).Nodup
      ∧ ([str "a", str "f"] : List Str).Nodup :=
  let h := c9_amended [str "ONESHOT", str "g", str "gen", str "a", str "a",
    str "f_a_X_t.wav"] (by decide) (by decide)
    { sample_type := str "oneshot", genres := [str "g"],
      generals := [str "gen"], specifics := [str "a", str "f"],
      title := str "t", key := [], bpm := 0 } (by decide)
  ⟨h.1, h.2.1, h.2.2 (by decide)⟩

end LupShots
